import Mathlib

/-!
# task-tools: the GCS object writer and the backloader hour mask

A shallow embedding of

* `apps/taskmasters/backloader/main.go`: `parseHours`;
* `file/gcs/write.go`: `newWriterFromGCSClient`, `Writer.Write`, `Writer.WriteLine`,
  `Writer.Stats`, `Writer.Abort`, `Writer.Close`, `Writer.copy`, `Writer.setObjSts`.

Go strings are Lean strings, a Go `error` is an `Option String` (`none` is `nil`),
Go `int`/`int64` values are `Int`.
-/

namespace TaskTools

/-! ## Backloader: `parseHours` -/

namespace Backloader

/-- Decimal value of a run of ASCII digits, most significant first, continuing
from the accumulator `acc` (the loop `n = n*10 + int(ch)` of `strconv.Atoi`). -/
def digitsValue (acc : Nat) : List Char → Nat
  | [] => acc
  | c :: cs => digitsValue (acc * 10 + (c.toNat - '0'.toNat)) cs

/-- The Go standard library function `strconv.Atoi` on a 64-bit platform:
an optional sign `+` or `-`, then at least one ASCII digit and nothing else;
the value has to fit a signed 64-bit integer. `none` stands for every error
(the caller only tests `err != nil`). -/
def Atoi (s : List Char) : Option Int :=
  let neg : Bool := s.head? = some '-'
  let body : List Char :=
    match s with
    | '-' :: r => r
    | '+' :: r => r
    | _ => s
  if body = [] then none
  else if body.all Char.isDigit then
    let v : Int := if neg then -(digitsValue 0 body : Int) else (digitsValue 0 body : Int)
    if -(2 ^ 63 : Int) ≤ v ∧ v < (2 ^ 63 : Int) then some v else none
  else none

/-- The call `strings.Replace(s, " ", "", -1)`: every space is dropped. -/
def removeSpaces (s : List Char) : List Char :=
  s.filter (fun c => c != ' ')

/-- The call `strings.Split(s, ",")`: the pieces between commas, in order; a
string without a comma (the empty string too) gives one piece. -/
def splitComma : List Char → List (List Char)
  | [] => [[]]
  | c :: cs =>
    if c = ',' then [] :: splitComma cs
    else
      match splitComma cs with
      | [] => [[c]]
      | t :: ts => (c :: t) :: ts

/-- The `for _, hour := range strings.Split(hrsStr, ",")` loop of `parseHours`,
started on the mask `hrs`: the first bad token ends it with the mask built so
far and an error. -/
def parseHoursLoop (hrs : List Bool) : List (List Char) → List Bool × Option String
  | [] => (hrs, none)
  | hour :: rest =>
    match Atoi hour with
    | none => (hrs, some ("invalid hour value '" ++ String.mk hour ++ "'"))
    | some hr =>
      if 0 ≤ hr ∧ hr ≤ 23 then
        parseHoursLoop (hrs.set hr.toNat true) rest
      else
        (hrs, some ("invalid hour value '" ++ String.mk hour ++ "' must be int between 0 and 23"))

/-- The function `parseHours` of `apps/taskmasters/backloader/main.go`. -/
def parseHours (hrsStr : String) : List Bool × Option String :=
  let hrs := List.replicate 24 false
  if hrsStr = "" then (hrs, none)
  else
    let hrsStr := removeSpaces hrsStr.data
    parseHoursLoop hrs (splitComma hrsStr)

/-- The tokens `parseHours` iterates over for a non-empty input. -/
def hourTokens (hrsStr : String) : List (List Char) :=
  splitComma (removeSpaces hrsStr.data)

end Backloader

end TaskTools

/-! ## The GCS writer: data model -/

namespace TaskTools

/-- A `time.Time` value as a count of nanoseconds from the zero time, so that
`0` is the zero value (`time.Time{}`). -/
abbrev Time := Int

namespace filepath

/-- The scan of `filepath.Ext`, from the last character backwards: `rev` is
what is left of the reversed path, `acc` the characters already passed. It
stops at the first dot (the extension, dot included) or at a path separator
or the start of the path (no extension). -/
def extScan : List Char → List Char → List Char
  | [], _ => []
  | c :: rev, acc =>
    if c = '/' then []
    else if c = '.' then c :: acc
    else extScan rev (c :: acc)

/-- The Go standard library function `filepath.Ext`: the suffix beginning at
the final dot in the final element of the path, empty if there is no dot. -/
def Ext (path : String) : String :=
  String.mk (extScan path.data.reverse [])

end filepath

namespace stat

/-- Modelled from the spec: the type `stat.Stats` (package `file/stat` is not
among the sources), the spec's ObjectMetadata: Path (caller-facing
destination), Size, Checksum, Created (timestamp, zero until a successful
commit) and the optional line count. The defaults are the Go zero value. -/
structure Stats where
  LineCnt : Int := 0
  Size : Int := 0
  Checksum : String := ""
  Path : String := ""
  Created : Time := 0
deriving DecidableEq, Repr

/-- Modelled from the spec: `stat.New()`, metadata with nothing set yet. -/
def New : Stats := {}

/-- Modelled from the spec: `Stats.SetPath`, which stores the path. -/
def Stats.SetPath (s : Stats) (pth : String) : Stats := { s with Path := pth }

/-- Modelled from the spec: `Stats.SetCreated`, which stores the timestamp. -/
def Stats.SetCreated (s : Stats) (t : Time) : Stats := { s with Created := t }

/-- Modelled from the spec: `Stats.SetSize`, which stores the size. -/
def Stats.SetSize (s : Stats) (size : Int) : Stats := { s with Size := size }

end stat

namespace GCS

/-- The fields of `minio.ObjectInfo` that `setObjSts` reads. -/
structure ObjectInfo where
  ETag : String
  Key : String
  LastModified : Time
  Size : Int
deriving DecidableEq, Repr

/-- The field of `minio.PutObjectOptions` that `copy` sets. -/
structure PutObjectOptions where
  ContentType : String := ""
deriving DecidableEq, Repr

/-- Modelled from the spec: `buf.Options` (package `file/buf` is not among
the sources), the staging options of the configuration surface: `Compress`,
`KeepFailed`, `UseFileBuffer`, `TempDir`. -/
structure BufOptions where
  Compress : Bool := false
  KeepFailed : Bool := false
  UseFileBuffer : Bool := false
  TempDir : String := ""
deriving DecidableEq, Repr

/-- Modelled from the spec: `gcs.Options` (its declaration is not among the
sources): the embedded `buf.Options` that `newWriterFromGCSClient` hands to
`buf.NewBuffer`, and the `ContentTypeOverride` of the spec's configuration
surface (`none` when the caller gives no override). -/
structure Options extends BufOptions where
  ContentTypeOverride : Option String := none
deriving DecidableEq, Repr

/-- One call made by the writer on one of its two collaborators, the staging
buffer (`w.bfr`) or the object store client (`w.gcsClient`), arguments
included. `PutObject` also receives `w.bfr` as its reader. -/
inductive Event where
  | NewBuffer (opt : BufOptions)
  | bfrWrite (p : List UInt8)
  | bfrWriteLine (ln : List UInt8)
  | bfrAbort
  | bfrClose
  | bfrReset
  | bfrCleanup
  | FPutObject (bucket objPth tmpPth : String) (opts : PutObjectOptions)
  | PutObject (bucket objPth : String) (size : Int) (opts : PutObjectOptions)
  | StatObject (bucket objPth : String)
deriving DecidableEq, Repr

/-- Everything the writer calls and does not define: each answer is a function
of the history of calls made so far, the call being answered included (it is
the last event), which covers every deterministic buffer and backend. -/
structure Env where
  /-- The Go standard library function `mime.TypeByExtension`; the empty
  string when the extension has no associated type. -/
  TypeByExtension : String → String
  /-- The function `parsePth` of the package, not among the sources: bucket and
  object path of a destination path. -/
  parsePth : String → String × String
  /-- The function `NewOptions` of the package, not among the sources. -/
  NewOptions : Options
  /-- The error of `buf.NewBuffer`. -/
  NewBuffer : List Event → Option String
  /-- The value of `bfr.Stats()`. -/
  bfrStats : List Event → stat.Stats
  /-- The result of `bfr.Write`. -/
  bfrWrite : List Event → Int × Option String
  /-- The result of `bfr.WriteLine`. -/
  bfrWriteLine : List Event → Option String
  /-- The result of `bfr.Abort`. -/
  bfrAbort : List Event → Option String
  /-- The result of `bfr.Cleanup`. -/
  bfrCleanup : List Event → Option String
  /-- The result of `gcsClient.FPutObject` or `gcsClient.PutObject`. -/
  putResult : List Event → Int × Option String
  /-- The result of `gcsClient.StatObject`. -/
  StatObject : List Event → Except String ObjectInfo

/-- The fields of `Writer` that are plain data. The two pointers `gcsClient`
and `bfr` are the `Env`; the mutex `mu` has no part in a sequential run. -/
structure Writer where
  sts : stat.Stats
  objSts : stat.Stats
  tmpPth : String
  bucket : String
  objPth : String
  done : Bool
  keepFailed : Bool
deriving DecidableEq, Repr

/-- A writer together with the calls made so far on its buffer and backend,
oldest first. -/
structure State where
  w : Writer
  calls : List Event
deriving DecidableEq, Repr

/-! ## The GCS writer: operations -/

/-- The function `newWriterFromGCSClient`; `opt = none` is the nil pointer and
`calls` the history before construction. -/
def newWriterFromGCSClient (env : Env) (pth : String) (opt : Option Options)
    (calls : List Event) : Except String State :=
  let opt : Options :=
    match opt with
    | none => env.NewOptions
    | some o => o
  let sts := stat.New
  let sts := sts.SetPath pth
  let opt : Options := if filepath.Ext pth = ".gz" then { opt with Compress := true } else opt
  let calls := calls ++ [Event.NewBuffer opt.toBufOptions]
  match env.NewBuffer calls with
  | some err => Except.error err
  | none =>
    let tmpPth := (env.bfrStats calls).Path
    let (bucket, objPth) := env.parsePth pth
    Except.ok
      { w :=
          { sts := sts
            objSts := {}
            tmpPth := tmpPth
            bucket := bucket
            objPth := objPth
            done := false
            keepFailed := opt.KeepFailed }
        calls := calls }

namespace Writer

/-- The method `Writer.Write`. -/
def Write (env : Env) (s : State) (p : List UInt8) : State × (Int × Option String) :=
  let calls := s.calls ++ [Event.bfrWrite p]
  ({ s with calls := calls }, env.bfrWrite calls)

/-- The method `Writer.WriteLine`. -/
def WriteLine (env : Env) (s : State) (ln : List UInt8) : State × Option String :=
  let calls := s.calls ++ [Event.bfrWriteLine ln]
  ({ s with calls := calls }, env.bfrWriteLine calls)

/-- The method `Writer.Stats`. -/
def Stats (env : Env) (s : State) : stat.Stats :=
  let sts := env.bfrStats s.calls
  let sts := { sts with Path := s.w.sts.Path }
  let sts := { sts with Created := s.w.sts.Created }
  sts

/-- The method `Writer.Abort`. -/
def Abort (env : Env) (s : State) : State × Option String :=
  if s.w.done then (s, none)
  else
    let w := { s.w with done := true }
    let calls := s.calls ++ [Event.bfrAbort]
    ({ w := w, calls := calls }, env.bfrAbort calls)

/-- The content type `Writer.copy` puts in its `minio.PutObjectOptions`. -/
def contentType (env : Env) (objPth : String) : String :=
  let ct := env.TypeByExtension (filepath.Ext objPth)
  if ct = "" then "application/octet-stream" else ct

/-- The method `Writer.copy`: the call made and its result. -/
def copy (env : Env) (s : State) : State × (Int × Option String) :=
  let opts : PutObjectOptions := { ContentType := contentType env s.w.objPth }
  if s.w.tmpPth ≠ "" then
    let calls := s.calls ++ [Event.FPutObject s.w.bucket s.w.objPth s.w.tmpPth opts]
    ({ s with calls := calls }, env.putResult calls)
  else
    let calls :=
      s.calls ++ [Event.PutObject s.w.bucket s.w.objPth (env.bfrStats s.calls).Size opts]
    ({ s with calls := calls }, env.putResult calls)

/-- The method `Writer.setObjSts`. -/
def setObjSts (env : Env) (s : State) : State × Option String :=
  let calls := s.calls ++ [Event.StatObject s.w.bucket s.w.objPth]
  match env.StatObject calls with
  | Except.error err => ({ s with calls := calls }, some err)
  | Except.ok objInfo =>
    let objSts := s.w.objSts.SetCreated objInfo.LastModified
    let objSts := { objSts with Checksum := objInfo.ETag }
    let objSts := objSts.SetPath objInfo.Key
    let objSts := objSts.SetSize objInfo.Size
    ({ w := { s.w with objSts := objSts }, calls := calls }, none)

/-- The first two statements of `Writer.Close` past the `done` guard:
`w.done = true` and `w.bfr.Close()`, whose result is dropped. -/
def closeBuffer (s : State) : State :=
  { w := { s.w with done := true }, calls := s.calls ++ [Event.bfrClose] }

/-- The method `Writer.Close`. -/
def Close (env : Env) (s : State) : State × Option String :=
  if s.w.done then (s, none)
  else
    let s := closeBuffer s
    let (s, _, err) := copy env s
    match err with
    | some e =>
      if s.w.keepFailed then
        ({ s with calls := s.calls ++ [Event.bfrReset] }, some e)
      else
        ({ s with calls := s.calls ++ [Event.bfrCleanup] }, some e)
    | none =>
      let (s, _) := setObjSts env s
      let s := { s with w := { s.w with sts := { s.w.sts with Created := s.w.objSts.Created } } }
      let calls := s.calls ++ [Event.bfrCleanup]
      ({ s with calls := calls }, env.bfrCleanup calls)

end Writer

/-! ## Runs of calls on one writer -/

/-- A call a client makes on a writer. -/
inductive Op where
  | Write (p : List UInt8)
  | WriteLine (ln : List UInt8)
  | Close
  | Abort
deriving DecidableEq, Repr

/-- The state after one call. -/
def step (env : Env) (s : State) : Op → State
  | Op.Write p => (Writer.Write env s p).1
  | Op.WriteLine ln => (Writer.WriteLine env s ln).1
  | Op.Close => (Writer.Close env s).1
  | Op.Abort => (Writer.Abort env s).1

/-- The state after a sequence of calls, first to last. -/
def run (env : Env) (s : State) (ops : List Op) : State :=
  ops.foldl (step env) s

/-- Whether the call is a backend put (`FPutObject` or `PutObject`). -/
def Event.isPut : Event → Bool
  | Event.FPutObject _ _ _ _ => true
  | Event.PutObject _ _ _ _ => true
  | _ => false

/-- Whether the call is a backend stat (`StatObject`). -/
def Event.isStat : Event → Bool
  | Event.StatObject _ _ => true
  | _ => false

/-- Number of backend put calls in a history. -/
def putCalls (calls : List Event) : Nat := calls.countP Event.isPut

/-- Number of backend stat calls in a history. -/
def statCalls (calls : List Event) : Nat := calls.countP Event.isStat

/-- Number of calls of one kind on the buffer in a history. -/
def bfrCalls (e : Event) (calls : List Event) : Nat := calls.count e

/-! ## A concrete environment -/

/-- Some entries of the table built into Go's `mime` package. -/
def builtinTypes (ext : String) : String :=
  if ext = ".json" then "application/json"
  else if ext = ".html" then "text/html; charset=utf-8"
  else if ext = ".png" then "image/png"
  else if ext = ".pdf" then "application/pdf"
  else ""

/-- Bytes handed to the buffer in a history: the payloads of `Write` and, with
a newline each, of `WriteLine`. -/
def bytesWritten : List Event → Int
  | [] => 0
  | Event.bfrWrite p :: rest => p.length + bytesWritten rest
  | Event.bfrWriteLine ln :: rest => ln.length + 1 + bytesWritten rest
  | _ :: rest => bytesWritten rest

/-- An environment with an in-memory buffer that accepts every write (its
`Stats().Path` is empty), the bucket `bucket`, and a backend whose put and
stat answers are the arguments. -/
def exampleEnv (putErr : Option String) (statRes : Except String ObjectInfo) : Env where
  TypeByExtension := builtinTypes
  parsePth := fun pth => ("bucket", pth)
  NewOptions := {}
  NewBuffer := fun _ => none
  bfrStats := fun calls => { Size := bytesWritten calls, Checksum := "buffer-md5" }
  bfrWrite := fun calls =>
    match calls.getLast? with
    | some (Event.bfrWrite p) => (p.length, none)
    | _ => (0, none)
  bfrWriteLine := fun _ => none
  bfrAbort := fun _ => none
  bfrCleanup := fun _ => none
  putResult := fun calls => (if putErr = none then bytesWritten calls else 0, putErr)
  StatObject := fun _ => statRes

/-- What the example backend reports for a stored object. -/
def exampleInfo : ObjectInfo :=
  { ETag := "backend-etag", Key := "a/b.json", LastModified := 1600000000, Size := 5 }

/-- An open writer for the object `a/b.json`, as `newWriterFromGCSClient`
builds it in the example environment, after three bytes were written. -/
def exampleOpen : State :=
  { w :=
      { sts := { Path := "a/b.json" }
        objSts := {}
        tmpPth := ""
        bucket := "bucket"
        objPth := "a/b.json"
        done := false
        keepFailed := false }
    calls := [Event.NewBuffer {}, Event.bfrWrite [1, 2, 3]] }

/-- The example environment with a backend on which put and stat succeed. -/
def okEnv : Env := exampleEnv none (Except.ok exampleInfo)

/-- The example environment with a backend whose put fails. -/
def putFailsEnv : Env := exampleEnv (some "put failed") (Except.ok exampleInfo)

/-- The example environment with a backend whose put succeeds and whose stat
then reports the object as missing. -/
def statFailsEnv : Env := exampleEnv none (Except.error "NotFound")

/-- The example writer with `keepFailed` set. -/
def exampleKeep : State :=
  { exampleOpen with w := { exampleOpen.w with keepFailed := true } }

/-- The example writer after a successful `Close`. -/
def exampleClosed : State := (Writer.Close okEnv exampleOpen).1

/-- The example writer after an `Abort`. -/
def exampleAborted : State := (Writer.Abort okEnv exampleOpen).1

/-- The content type a backend put call carries; `none` for every other call. -/
def Event.contentType? : Event → Option String
  | Event.FPutObject _ _ _ opts => some opts.ContentType
  | Event.PutObject _ _ _ opts => some opts.ContentType
  | _ => none

/-- What the example writer's construction returns when the caller asks for
the content type `text/plain` in the options. -/
def exampleOverride : Except String State :=
  newWriterFromGCSClient okEnv "a/b.json" (some { ContentTypeOverride := some "text/plain" }) []

/-- The state `newWriterFromGCSClient` returns for `a/b.json` with nil options
in the example environment. -/
def exampleNew : State :=
  { exampleOpen with calls := [Event.NewBuffer {}] }

end GCS

end TaskTools


namespace TaskTools

namespace Backloader

theorem getD_replicate_false (n h : Nat) :
    (List.replicate n false).getD h false = false := by
  rw [List.getD_eq_getElem?_getD, List.getElem?_replicate]
  split <;> rfl

theorem parseHoursLoop_length (toks : List (List Char)) :
    ∀ hrs : List Bool, (parseHoursLoop hrs toks).1.length = hrs.length := by
  induction toks with
  | nil => intro hrs; rfl
  | cons hour rest ih =>
    intro hrs
    unfold parseHoursLoop
    cases hA : Atoi hour with
    | none => rfl
    | some hr =>
      by_cases hr23 : 0 ≤ hr ∧ hr ≤ 23
      · simp only [hr23, and_self, if_true]
        rw [ih]; simp
      · simp only [hr23, if_false]

theorem parseHoursLoop_valid (toks : List (List Char)) :
    ∀ hrs : List Bool,
      (∀ t ∈ toks, ∃ n : Int, Atoi t = some n ∧ 0 ≤ n ∧ n ≤ 23) →
      (parseHoursLoop hrs toks).2 = none ∧
      ∀ h : Nat, h < hrs.length →
        ((parseHoursLoop hrs toks).1.getD h false = true ↔
          (hrs.getD h false = true ∨ ∃ t ∈ toks, Atoi t = some (h : Int))) := by
  induction toks with
  | nil =>
    intro hrs _
    refine ⟨rfl, ?_⟩
    intro h _
    simp [parseHoursLoop]
  | cons hour rest ih =>
    intro hrs hall
    obtain ⟨n, hn, h0, h23⟩ := hall hour (List.mem_cons_self _ _)
    have hrest : ∀ t ∈ rest, ∃ n : Int, Atoi t = some n ∧ 0 ≤ n ∧ n ≤ 23 :=
      fun t ht => hall t (List.mem_cons_of_mem _ ht)
    obtain ⟨e, hget⟩ := ih (hrs.set n.toNat true) hrest
    have hstep : parseHoursLoop hrs (hour :: rest)
        = parseHoursLoop (hrs.set n.toNat true) rest := by
      rw [parseHoursLoop, hn]
      simp [h0, h23]
    rw [hstep]
    refine ⟨e, ?_⟩
    intro h hh
    rw [hget h (by simpa using hh)]
    have hset : (hrs.set n.toNat true).getD h false = true ↔
        (hrs.getD h false = true ∨ n = (h : Int)) := by
      by_cases hnh : n.toNat = h
      · have : n = (h : Int) := by omega
        simp [List.getD_eq_getElem?_getD, List.getElem?_set, hnh, hh, this]
      · have : ¬ n = (h : Int) := by omega
        simp [List.getD_eq_getElem?_getD, List.getElem?_set, hnh, this]
    rw [hset]
    constructor
    · rintro ((h1 | h1) | ⟨t, ht, hat⟩)
      · exact Or.inl h1
      · exact Or.inr ⟨hour, List.mem_cons_self _ _, by rw [hn, h1]⟩
      · exact Or.inr ⟨t, List.mem_cons_of_mem _ ht, hat⟩
    · rintro (h1 | ⟨t, ht, hat⟩)
      · exact Or.inl (Or.inl h1)
      · rcases List.mem_cons.mp ht with rfl | ht
        · rw [hn] at hat
          exact Or.inl (Or.inr (by simpa using hat))
        · exact Or.inr ⟨t, ht, hat⟩

theorem parseHoursLoop_invalid (toks : List (List Char)) :
    ∀ hrs : List Bool,
      (∃ t ∈ toks, ∀ n : Int, Atoi t = some n → ¬ (0 ≤ n ∧ n ≤ 23)) →
      (parseHoursLoop hrs toks).2 ≠ none := by
  induction toks with
  | nil => intro hrs h; obtain ⟨t, ht, _⟩ := h; cases ht
  | cons hour rest ih =>
    intro hrs hex
    unfold parseHoursLoop
    cases hA : Atoi hour with
    | none => simp
    | some hr =>
      by_cases hr23 : 0 ≤ hr ∧ hr ≤ 23
      · simp only [hr23, and_self, if_true]
        apply ih
        obtain ⟨t, ht, hbad⟩ := hex
        rcases List.mem_cons.mp ht with rfl | ht
        · exact absurd hr23 (hbad hr hA)
        · exact ⟨t, ht, hbad⟩
      · simp only [hr23, if_false]
        simp

/-- The pieces `splitComma` returns, joined again with commas, are the input;
there is at least one piece and no piece holds a comma. -/
theorem splitComma_pinned (l : List Char) :
    List.intercalate [','] (splitComma l) = l ∧ splitComma l ≠ [] ∧
      ∀ t ∈ splitComma l, ',' ∉ t := by
  induction l with
  | nil => simp [splitComma, List.intercalate]
  | cons c cs ih =>
    obtain ⟨hi, hne, hmem⟩ := ih
    unfold splitComma
    by_cases hc : c = ','
    · simp only [hc, if_true]
      cases hs : splitComma cs with
      | nil => exact absurd hs hne
      | cons t ts =>
        rw [hs] at hi hmem
        refine ⟨?_, by simp, ?_⟩
        · simp only [List.intercalate, List.intersperse_cons_cons, List.flatten_cons] at hi ⊢
          simp [hi]
        · intro u hu
          rcases List.mem_cons.mp hu with rfl | hu
          · simp
          · exact hmem u hu
    · simp only [hc, if_false]
      cases hs : splitComma cs with
      | nil => exact absurd hs hne
      | cons t ts =>
        rw [hs] at hi hmem
        refine ⟨?_, by simp, ?_⟩
        · cases ts with
          | nil => simpa [List.intercalate] using hi
          | cons t2 ts2 =>
            simp only [List.intercalate, List.intersperse_cons_cons, List.flatten_cons] at hi ⊢
            simpa using hi
        · intro u hu
          rcases List.mem_cons.mp hu with rfl | hu
          · intro hcu
            rcases List.mem_cons.mp hcu with h1 | h1
            · exact hc h1.symm
            · exact hmem t (List.mem_cons_self _ _) h1
          · exact hmem u (List.mem_cons_of_mem _ hu)

/-- Every character of a piece `splitComma` returns is a character of the input. -/
theorem splitComma_subset (l : List Char) :
    ∀ t ∈ splitComma l, ∀ c ∈ t, c ∈ l := by
  induction l with
  | nil =>
    intro t ht c hc
    simp [splitComma] at ht
    rw [ht] at hc
    cases hc
  | cons d ds ih =>
    intro t ht c hc
    unfold splitComma at ht
    by_cases hd : d = ','
    · simp only [hd, if_true] at ht
      rcases List.mem_cons.mp ht with rfl | ht
      · cases hc
      · exact List.mem_cons_of_mem _ (ih t ht c hc)
    · simp only [hd, if_false] at ht
      cases hs : splitComma ds with
      | nil =>
        rw [hs] at ht
        simp at ht
        rw [ht] at hc
        simp at hc
        rw [hc]
        exact List.mem_cons_self _ _
      | cons u us =>
        rw [hs] at ht ih
        rcases List.mem_cons.mp ht with rfl | ht
        · rcases List.mem_cons.mp hc with rfl | hc
          · exact List.mem_cons_self _ _
          · exact List.mem_cons_of_mem _ (ih u (List.mem_cons_self _ _) c hc)
        · exact List.mem_cons_of_mem _ (ih t (List.mem_cons_of_mem _ ht) c hc)

/-- C10: `parseHours` always returns 24 slots; the empty string gives the
all-false mask and no error; for a non-empty string, when every token (spaces
removed, split on commas) is an integer in 0..23 there is no error and slot `h`
is set exactly when some token has value `h`, and when some token is not an
integer or is out of 0..23 an error is returned. The tokens are the
comma-free pieces of the input without its spaces (joined with commas they
give it back), and the decimal numeral of every hour 0..23 parses as that
hour, with or without a leading `+` or a leading zero. -/
theorem parseHours_mask (s : String) :
    (parseHours s).1.length = 24 ∧
    (s = "" → parseHours s = (List.replicate 24 false, none)) ∧
    (s ≠ "" →
      ((∀ t ∈ hourTokens s, ∃ n : Int, Atoi t = some n ∧ 0 ≤ n ∧ n ≤ 23) →
        (parseHours s).2 = none ∧
        ∀ h : Nat, h < 24 →
          ((parseHours s).1.getD h false = true ↔ ∃ t ∈ hourTokens s, Atoi t = some (h : Int))) ∧
      ((∃ t ∈ hourTokens s, ∀ n : Int, Atoi t = some n → ¬ (0 ≤ n ∧ n ≤ 23)) →
        (parseHours s).2 ≠ none)) ∧
    (List.intercalate [','] (hourTokens s) = s.data.filter (fun c => c != ' ') ∧
      ∀ t ∈ hourTokens s, ',' ∉ t ∧ ' ' ∉ t) ∧
    (∀ h : Nat, h < 24 →
      Atoi (Nat.toDigits 10 h) = some (h : Int) ∧
      Atoi ('+' :: Nat.toDigits 10 h) = some (h : Int) ∧
      Atoi ('0' :: Nat.toDigits 10 h) = some (h : Int)) := by
  refine ⟨?_, ?_, ?_, ?_, ?_⟩
  · unfold parseHours
    by_cases hs : s = ""
    · simp [hs]
    · simp only [hs, if_false]
      rw [parseHoursLoop_length]; simp
  · intro hs
    simp [parseHours, hs]
  · intro hs
    have hp : parseHours s = parseHoursLoop (List.replicate 24 false) (hourTokens s) := by
      simp [parseHours, hs, hourTokens]
    rw [hp]
    refine ⟨?_, ?_⟩
    · intro hall
      obtain ⟨e, hget⟩ := parseHoursLoop_valid (hourTokens s) (List.replicate 24 false) hall
      refine ⟨e, ?_⟩
      intro h hh
      rw [hget h (by simpa using hh), getD_replicate_false]
      simp
    · exact parseHoursLoop_invalid (hourTokens s) (List.replicate 24 false)
  · obtain ⟨hi, _, hmem⟩ := splitComma_pinned (removeSpaces s.data)
    refine ⟨hi, fun t ht => ⟨hmem t ht, fun hsp => ?_⟩⟩
    have hin2 : ' ' ∈ removeSpaces s.data :=
      splitComma_subset (removeSpaces s.data) t ht ' ' hsp
    simp [removeSpaces] at hin2
  · decide

/-- Witness for C10 at the flag documentation example with a space and a
duplicate: no error and exactly the slots 0, 4 and 15 set; an hour out of
range and a token that is no integer give an error. -/
theorem parseHours_mask_witness :
    ((parseHours "0, 4,15,4").2 = none ∧
      ∀ h : Nat, h < 24 →
        ((parseHours "0, 4,15,4").1.getD h false = true ↔
          ∃ t ∈ hourTokens "0, 4,15,4", Atoi t = some (h : Int))) ∧
    hourTokens "0, 4,15,4" = [['0'], ['4'], ['1', '5'], ['4']] ∧
    parseHours "0, 4,15,4" =
      ([true, false, false, false, true, false, false, false, false, false, false, false,
        false, false, false, true, false, false, false, false, false, false, false, false],
       none) ∧
    parseHours "15,4,0" = parseHours "0, 4,15,4" ∧
    parseHours "23,+7,07" =
      ([false, false, false, false, false, false, false, true, false, false, false, false,
        false, false, false, false, false, false, false, false, false, false, false, true],
       none) ∧
    (parseHours "0,24").2 = some "invalid hour value '24' must be int between 0 and 23" ∧
    (parseHours "0,-1").2 = some "invalid hour value '-1' must be int between 0 and 23" ∧
    (parseHours "1,x").2 = some "invalid hour value 'x'" ∧
    (parseHours "1,,2").2 = some "invalid hour value ''" ∧
    (parseHours " ").2 = some "invalid hour value ''" :=
  ⟨((parseHours_mask "0, 4,15,4").2.2.1 (by decide)).1 (by decide),
    by decide, by decide, by decide, by decide, by decide, by decide, by decide, by decide,
    by decide⟩

end Backloader

end TaskTools

/-! ## The GCS writer: lifecycle -/

namespace TaskTools

namespace GCS

open Writer

theorem Close_done (env : Env) (s : State) (h : s.w.done = true) :
    Close env s = (s, none) := by
  simp [Close, h]

theorem Abort_done (env : Env) (s : State) (h : s.w.done = true) :
    Abort env s = (s, none) := by
  simp [Abort, h]

theorem Abort_open (env : Env) (s : State) (h : s.w.done = false) :
    Abort env s =
      ({ w := { s.w with done := true }, calls := s.calls ++ [Event.bfrAbort] },
        env.bfrAbort (s.calls ++ [Event.bfrAbort])) := by
  simp [Abort, h]

theorem copy_w (env : Env) (s : State) : (copy env s).1.w = s.w := by
  unfold copy
  split <;> rfl

theorem copy_calls (env : Env) (s : State) :
    ∃ e : Event, e.isPut = true ∧ e.isStat = false ∧
      (∀ b : Event, b.isPut = false → b ≠ e) ∧
      (copy env s).1.calls = s.calls ++ [e] := by
  by_cases ht : s.w.tmpPth = ""
  · refine ⟨Event.PutObject s.w.bucket s.w.objPth (env.bfrStats s.calls).Size
      { ContentType := contentType env s.w.objPth }, rfl, rfl, ?_, ?_⟩
    · intro b hb hbe
      rw [hbe] at hb
      cases hb
    · simp [copy, ht]
  · refine ⟨Event.FPutObject s.w.bucket s.w.objPth s.w.tmpPth
      { ContentType := contentType env s.w.objPth }, rfl, rfl, ?_, ?_⟩
    · intro b hb hbe
      rw [hbe] at hb
      cases hb
    · simp [copy, ht]

theorem setObjSts_calls (env : Env) (s : State) :
    (setObjSts env s).1.calls = s.calls ++ [Event.StatObject s.w.bucket s.w.objPth] := by
  unfold setObjSts
  dsimp only
  cases env.StatObject (s.calls ++ [Event.StatObject s.w.bucket s.w.objPth]) <;> rfl

theorem Close_put_failed (env : Env) (s : State) (e : String) (h : s.w.done = false)
    (hput : (copy env (closeBuffer s)).2.2 = some e) :
    Close env s =
      ({ w := { s.w with done := true },
         calls := (copy env (closeBuffer s)).1.calls ++
           [if s.w.keepFailed then Event.bfrReset else Event.bfrCleanup] },
        some e) := by
  have hw := copy_w env (closeBuffer s)
  unfold Close
  simp only [h, Bool.false_eq_true, if_false]
  rw [hput]
  simp only [hw]
  cases hk : s.w.keepFailed <;> simp [closeBuffer, hk, ← hw]

theorem Close_put_ok (env : Env) (s : State) (h : s.w.done = false)
    (hput : (copy env (closeBuffer s)).2.2 = none) :
    Close env s =
      ({ w :=
           { (setObjSts env (copy env (closeBuffer s)).1).1.w with
             sts :=
               { (setObjSts env (copy env (closeBuffer s)).1).1.w.sts with
                 Created := (setObjSts env (copy env (closeBuffer s)).1).1.w.objSts.Created } },
         calls := (setObjSts env (copy env (closeBuffer s)).1).1.calls ++ [Event.bfrCleanup] },
        env.bfrCleanup
          ((setObjSts env (copy env (closeBuffer s)).1).1.calls ++ [Event.bfrCleanup])) := by
  unfold Close
  simp only [h, Bool.false_eq_true, if_false]
  rw [hput]

theorem setObjSts_error (env : Env) (s : State) (err : String)
    (h : env.StatObject (s.calls ++ [Event.StatObject s.w.bucket s.w.objPth]) = Except.error err) :
    setObjSts env s =
      ({ s with calls := s.calls ++ [Event.StatObject s.w.bucket s.w.objPth] }, some err) := by
  unfold setObjSts
  dsimp only
  rw [h]

theorem setObjSts_ok (env : Env) (s : State) (info : ObjectInfo)
    (h : env.StatObject (s.calls ++ [Event.StatObject s.w.bucket s.w.objPth]) = Except.ok info) :
    setObjSts env s =
      ({ w :=
           { s.w with
             objSts :=
               { LineCnt := s.w.objSts.LineCnt, Size := info.Size, Checksum := info.ETag,
                 Path := info.Key, Created := info.LastModified } },
         calls := s.calls ++ [Event.StatObject s.w.bucket s.w.objPth] }, none) := by
  unfold setObjSts
  dsimp only
  rw [h]
  rfl

theorem setObjSts_error_iff (env : Env) (s : State) :
    (setObjSts env s).2 = none ↔
      ∃ info, env.StatObject (s.calls ++ [Event.StatObject s.w.bucket s.w.objPth])
        = Except.ok info := by
  cases h : env.StatObject (s.calls ++ [Event.StatObject s.w.bucket s.w.objPth]) with
  | error err => rw [setObjSts_error env s err h]; simp
  | ok info => rw [setObjSts_ok env s info h]; simp

theorem putCalls_append (a b : List Event) : putCalls (a ++ b) = putCalls a + putCalls b := by
  simp [putCalls, List.countP_append]

theorem statCalls_append (a b : List Event) : statCalls (a ++ b) = statCalls a + statCalls b := by
  simp [statCalls, List.countP_append]

theorem bfrCalls_append (e : Event) (a b : List Event) :
    bfrCalls e (a ++ b) = bfrCalls e a + bfrCalls e b := by
  simp [bfrCalls, List.count_append]

@[simp] theorem isPut_bfrWrite (p : List UInt8) : (Event.bfrWrite p).isPut = false := rfl
@[simp] theorem isPut_bfrWriteLine (p : List UInt8) : (Event.bfrWriteLine p).isPut = false := rfl
@[simp] theorem isPut_bfrAbort : Event.bfrAbort.isPut = false := rfl
@[simp] theorem isPut_bfrClose : Event.bfrClose.isPut = false := rfl
@[simp] theorem isPut_bfrReset : Event.bfrReset.isPut = false := rfl
@[simp] theorem isPut_bfrCleanup : Event.bfrCleanup.isPut = false := rfl
@[simp] theorem isPut_StatObject (b o : String) : (Event.StatObject b o).isPut = false := rfl
@[simp] theorem isStat_bfrWrite (p : List UInt8) : (Event.bfrWrite p).isStat = false := rfl
@[simp] theorem isStat_bfrWriteLine (p : List UInt8) : (Event.bfrWriteLine p).isStat = false := rfl
@[simp] theorem isStat_bfrAbort : Event.bfrAbort.isStat = false := rfl
@[simp] theorem isStat_bfrClose : Event.bfrClose.isStat = false := rfl
@[simp] theorem isStat_bfrReset : Event.bfrReset.isStat = false := rfl
@[simp] theorem isStat_bfrCleanup : Event.bfrCleanup.isStat = false := rfl
@[simp] theorem isStat_StatObject (b o : String) : (Event.StatObject b o).isStat = true := rfl

theorem putCalls_nil : putCalls [] = 0 := rfl

theorem statCalls_nil : statCalls [] = 0 := rfl

theorem bfrCalls_nil (e : Event) : bfrCalls e [] = 0 := rfl

theorem putCalls_cons (b : Event) (l : List Event) :
    putCalls (b :: l) = putCalls l + if b.isPut then 1 else 0 := by
  cases hb : b.isPut <;> simp [putCalls, hb]

theorem statCalls_cons (b : Event) (l : List Event) :
    statCalls (b :: l) = statCalls l + if b.isStat then 1 else 0 := by
  cases hb : b.isStat <;> simp [statCalls, hb]

theorem bfrCalls_cons (e b : Event) (l : List Event) :
    bfrCalls e (b :: l) = bfrCalls e l + if b = e then 1 else 0 := by
  by_cases h : b = e
  · subst h; simp [bfrCalls]
  · have h2 : ¬ e = b := fun h3 => h h3.symm
    simp [bfrCalls, h, List.count_cons, h2]

/-- A closed or aborted writer stays as it is under every later call, and the
later calls reach neither the put nor the stat of the backend. -/
theorem run_done (env : Env) (ops : List Op) :
    ∀ s : State, s.w.done = true →
      (run env s ops).w = s.w ∧
      putCalls (run env s ops).calls = putCalls s.calls ∧
      statCalls (run env s ops).calls = statCalls s.calls := by
  induction ops with
  | nil => intro s _; exact ⟨rfl, rfl, rfl⟩
  | cons op rest ih =>
    intro s h
    have hstep : (step env s op).w = s.w ∧
        putCalls (step env s op).calls = putCalls s.calls ∧
        statCalls (step env s op).calls = statCalls s.calls := by
      cases op with
      | Write p =>
        simp [step, Writer.Write, putCalls_append, statCalls_append, putCalls_cons,
          statCalls_cons, putCalls_nil, statCalls_nil]
      | WriteLine ln =>
        simp [step, Writer.WriteLine, putCalls_append, statCalls_append, putCalls_cons,
          statCalls_cons, putCalls_nil, statCalls_nil]
      | Close => simp [step, Close_done env s h]
      | Abort => simp [step, Abort_done env s h]
    obtain ⟨hw, hp, hs⟩ := hstep
    obtain ⟨iw, ip, is⟩ := ih (step env s op) (by rw [hw]; exact h)
    refine ⟨?_, ?_, ?_⟩
    · show (run env (step env s op) rest).w = s.w
      rw [iw, hw]
    · show putCalls (run env (step env s op) rest).calls = putCalls s.calls
      rw [ip, hp]
    · show statCalls (run env (step env s op) rest).calls = statCalls s.calls
      rw [is, hs]

/-- On a closed or aborted writer a sequence of `Close` and `Abort` calls
changes nothing at all. -/
theorem run_done_terminal (env : Env) (ops : List Op) :
    ∀ s : State, s.w.done = true → (∀ op ∈ ops, op = Op.Close ∨ op = Op.Abort) →
      run env s ops = s := by
  induction ops with
  | nil => intro s _ _; rfl
  | cons op rest ih =>
    intro s h hops
    have hstep : step env s op = s := by
      rcases hops op (List.mem_cons_self _ _) with rfl | rfl
      · simp [step, Close_done env s h]
      · simp [step, Abort_done env s h]
    show run env (step env s op) rest = s
    rw [hstep]
    exact ih s h (fun o ho => hops o (List.mem_cons_of_mem _ ho))

theorem Close_sets_done (env : Env) (s : State) : (Close env s).1.w.done = true := by
  cases h : s.w.done with
  | true => rw [Close_done env s h]; exact h
  | false =>
    cases hput : (copy env (closeBuffer s)).2.2 with
    | some e => rw [Close_put_failed env s e h hput]
    | none =>
      rw [Close_put_ok env s h hput]
      cases hst : env.StatObject ((copy env (closeBuffer s)).1.calls ++
          [Event.StatObject (copy env (closeBuffer s)).1.w.bucket
            (copy env (closeBuffer s)).1.w.objPth]) with
      | error err =>
        rw [setObjSts_error env _ err hst]
        simp [copy_w, closeBuffer]
      | ok info =>
        rw [setObjSts_ok env _ info hst]
        simp [copy_w, closeBuffer]

theorem Abort_sets_done (env : Env) (s : State) : (Abort env s).1.w.done = true := by
  cases h : s.w.done with
  | true => rw [Abort_done env s h]; exact h
  | false => rw [Abort_open env s h]

/-- C3: whatever the first `Close` or `Abort` returned, it leaves `done` set,
and on a writer with `done` set every `Close` and every `Abort` returns nil and
leaves the writer and the call history (buffer and backend) as they were. -/
theorem terminal_calls_are_noops (env : Env) (s : State) :
    (Close env s).1.w.done = true ∧
    (Abort env s).1.w.done = true ∧
    (s.w.done = true → Close env s = (s, none) ∧ Abort env s = (s, none)) :=
  ⟨Close_sets_done env s, Abort_sets_done env s,
    fun h => ⟨Close_done env s h, Abort_done env s h⟩⟩

/-- Witness for C3: the example writer after a successful `Close`, and `Close`
on the example writer after an `Abort`. -/
theorem terminal_calls_are_noops_witness :
    exampleClosed.w.done = true ∧
    Close okEnv exampleClosed = (exampleClosed, none) ∧
    Abort okEnv exampleClosed = (exampleClosed, none) ∧
    exampleAborted.w.done = true ∧
    Close okEnv exampleAborted = (exampleAborted, none) :=
  ⟨by decide, ((terminal_calls_are_noops okEnv exampleClosed).2.2 (by decide)).1,
    ((terminal_calls_are_noops okEnv exampleClosed).2.2 (by decide)).2, by decide,
    ((terminal_calls_are_noops okEnv exampleAborted).2.2 (by decide)).1⟩

theorem Close_counts (env : Env) (s : State) (h : s.w.done = false) :
    putCalls (Close env s).1.calls = putCalls s.calls + 1 ∧
    statCalls (Close env s).1.calls =
      statCalls s.calls + (if (copy env (closeBuffer s)).2.2 = none then 1 else 0) := by
  obtain ⟨e, hp, hs, _, hc⟩ := copy_calls env (closeBuffer s)
  cases hput : (copy env (closeBuffer s)).2.2 with
  | some err =>
    rw [Close_put_failed env s err h hput, hc]
    cases hk : s.w.keepFailed <;>
      simp [closeBuffer, putCalls_append, statCalls_append, putCalls_cons, statCalls_cons, putCalls_nil, statCalls_nil,
        hp, hs]
  | none =>
    rw [Close_put_ok env s h hput, setObjSts_calls, hc]
    simp [closeBuffer, putCalls_append, statCalls_append, putCalls_cons, statCalls_cons, putCalls_nil, statCalls_nil,
      hp, hs]

/-- C1, as amended: on an open writer two `Close` calls in succession make
exactly one backend put call in total, and one backend stat call when that put
succeeded, none when it failed; the second `Close` returns nil and leaves the
writer and the call history (buffer and backend) as the first left them. -/
theorem Close_idempotent (env : Env) (s : State) (h : s.w.done = false) :
    Close env (Close env s).1 = ((Close env s).1, none) ∧
    putCalls (Close env (Close env s).1).1.calls = putCalls s.calls + 1 ∧
    statCalls (Close env (Close env s).1).1.calls =
      statCalls s.calls + (if (copy env (closeBuffer s)).2.2 = none then 1 else 0) := by
  have h2 := Close_done env (Close env s).1 (Close_sets_done env s)
  rw [h2]
  exact ⟨rfl, Close_counts env s h⟩

/-- Witness for C1: the example writer on a backend where put and stat succeed. -/
theorem Close_idempotent_witness :
    exampleOpen.w.done = false ∧
    Close okEnv (Close okEnv exampleOpen).1 = ((Close okEnv exampleOpen).1, none) ∧
    putCalls (Close okEnv (Close okEnv exampleOpen).1).1.calls = putCalls exampleOpen.calls + 1 ∧
    statCalls (Close okEnv (Close okEnv exampleOpen).1).1.calls =
      statCalls exampleOpen.calls +
        (if (copy okEnv (closeBuffer exampleOpen)).2.2 = none then 1 else 0) :=
  ⟨by decide, Close_idempotent okEnv exampleOpen (by decide)⟩

/-- C1 fails as stated: on a backend whose put fails, two `Close` calls on an
open writer make one put call and no stat call at all. -/
theorem Close_twice_put_failure :
    exampleOpen.w.done = false ∧
    putCalls (Close putFailsEnv (Close putFailsEnv exampleOpen).1).1.calls = 1 ∧
    statCalls (Close putFailsEnv (Close putFailsEnv exampleOpen).1).1.calls = 0 ∧
    ¬ (statCalls (Close putFailsEnv (Close putFailsEnv exampleOpen).1).1.calls = 1) := by
  decide

/-- C2: `Abort` on an open writer makes one call, the buffer's `Abort`, whose
result it returns, and sets `done`; it makes no backend call, and after it no
sequence of `Write`, `WriteLine`, `Close` and `Abort` calls adds a backend put
or stat call (a sequence of `Close` and `Abort` calls changes nothing at all). -/
theorem Abort_never_contacts_backend (env : Env) (s : State) (h : s.w.done = false) :
    (Abort env s).1 = { w := { s.w with done := true }, calls := s.calls ++ [Event.bfrAbort] } ∧
    (Abort env s).2 = env.bfrAbort (s.calls ++ [Event.bfrAbort]) ∧
    (∀ ops : List Op, (∀ op ∈ ops, op = Op.Close ∨ op = Op.Abort) →
      run env (Abort env s).1 ops = (Abort env s).1) ∧
    (∀ ops : List Op,
      putCalls (run env (Abort env s).1 ops).calls = putCalls s.calls ∧
      statCalls (run env (Abort env s).1 ops).calls = statCalls s.calls) := by
  refine ⟨by rw [Abort_open env s h], by rw [Abort_open env s h], ?_, ?_⟩
  · intro ops hops
    exact run_done_terminal env ops _ (Abort_sets_done env s) hops
  · intro ops
    obtain ⟨_, hp, hs⟩ := run_done env ops (Abort env s).1 (Abort_sets_done env s)
    rw [hp, hs, Abort_open env s h]
    simp [putCalls_append, statCalls_append, putCalls_cons, statCalls_cons, putCalls_nil, statCalls_nil]

/-- Witness for C2: the example writer, which has made no backend call. -/
theorem Abort_never_contacts_backend_witness :
    exampleOpen.w.done = false ∧ putCalls exampleOpen.calls = 0 ∧
    putCalls (run okEnv (Abort okEnv exampleOpen).1
      [Op.Close, Op.Write [7], Op.Abort, Op.Close]).calls = putCalls exampleOpen.calls :=
  ⟨by decide, by decide,
    ((Abort_never_contacts_backend okEnv exampleOpen (by decide)).2.2.2
      [Op.Close, Op.Write [7], Op.Abort, Op.Close]).1⟩

/-- C7: when the backend put of `Close` fails with `e` on an open writer,
`Close` returns `e` and makes no stat call; with `keepFailed` it calls the
buffer's `Reset` once and `Cleanup` not at all, without `keepFailed` it calls
`Cleanup` once and `Reset` not at all; later `Close` and `Abort` calls change
nothing, so no call is added afterwards either. -/
theorem Close_transfer_failure (env : Env) (s : State) (e : String) (h : s.w.done = false)
    (hput : (copy env (closeBuffer s)).2.2 = some e) :
    (Close env s).2 = some e ∧
    putCalls (Close env s).1.calls = putCalls s.calls + 1 ∧
    statCalls (Close env s).1.calls = statCalls s.calls ∧
    (s.w.keepFailed = true →
      bfrCalls Event.bfrReset (Close env s).1.calls = bfrCalls Event.bfrReset s.calls + 1 ∧
      bfrCalls Event.bfrCleanup (Close env s).1.calls = bfrCalls Event.bfrCleanup s.calls) ∧
    (s.w.keepFailed = false →
      bfrCalls Event.bfrCleanup (Close env s).1.calls = bfrCalls Event.bfrCleanup s.calls + 1 ∧
      bfrCalls Event.bfrReset (Close env s).1.calls = bfrCalls Event.bfrReset s.calls) ∧
    (∀ ops : List Op, (∀ op ∈ ops, op = Op.Close ∨ op = Op.Abort) →
      run env (Close env s).1 ops = (Close env s).1) := by
  obtain ⟨hpc, hsc⟩ := Close_counts env s h
  obtain ⟨ev, _, _, hne, hc⟩ := copy_calls env (closeBuffer s)
  have hr : ¬ ev = Event.bfrReset := fun h1 => hne Event.bfrReset rfl h1.symm
  have hcl : ¬ ev = Event.bfrCleanup := fun h1 => hne Event.bfrCleanup rfl h1.symm
  refine ⟨by rw [Close_put_failed env s e h hput], hpc, ?_, ?_, ?_, ?_⟩
  · rw [hsc, hput]; simp
  · intro hk
    rw [Close_put_failed env s e h hput, hc]
    simp [hk, closeBuffer, bfrCalls_append, bfrCalls_cons, bfrCalls_nil, hr, hcl]
  · intro hk
    rw [Close_put_failed env s e h hput, hc]
    simp [hk, closeBuffer, bfrCalls_append, bfrCalls_cons, bfrCalls_nil, hr, hcl]
  · intro ops hops
    exact run_done_terminal env ops _ (Close_sets_done env s) hops

/-- Witness for C7: the example writer with `keepFailed` on a backend whose put fails. -/
theorem Close_transfer_failure_witness :
    exampleKeep.w.done = false ∧
    (copy putFailsEnv (closeBuffer exampleKeep)).2.2 = some "put failed" ∧
    (Close putFailsEnv exampleKeep).2 = some "put failed" ∧
    statCalls (Close putFailsEnv exampleKeep).1.calls = statCalls exampleKeep.calls :=
  ⟨by decide, by decide,
    (Close_transfer_failure putFailsEnv exampleKeep "put failed" (by decide) (by decide)).1,
    (Close_transfer_failure putFailsEnv exampleKeep "put failed" (by decide) (by decide)).2.2.1⟩

/-! ## The GCS writer: writes after the terminal call -/

/-- C8 fails as stated: on the example writer after a successful `Close`,
`Write` hands its bytes to the buffer and returns the buffer's answer, here
two bytes written and no error, and `WriteLine` returns no error either. -/
theorem Write_after_Close_forwarded :
    exampleClosed.w.done = true ∧
    Write okEnv exampleClosed [9, 9] =
      ({ exampleClosed with calls := exampleClosed.calls ++ [Event.bfrWrite [9, 9]] },
        (2, none)) ∧
    WriteLine okEnv exampleClosed [9] =
      ({ exampleClosed with calls := exampleClosed.calls ++ [Event.bfrWriteLine [9]] },
        none) := by
  decide

/-- C8, as amended: `Write` and `WriteLine` do not look at the writer's state;
in every state, also after `Close` or `Abort`, they make exactly one call, the
buffer's `Write` or `WriteLine` with the bytes given, return what the buffer
returns, and leave the writer's fields as they were. -/
theorem Write_forwards_in_every_state (env : Env) (s : State) (p : List UInt8) :
    (Write env s p).1.w = s.w ∧
    (Write env s p).1.calls = s.calls ++ [Event.bfrWrite p] ∧
    (Write env s p).2 = env.bfrWrite (s.calls ++ [Event.bfrWrite p]) ∧
    bfrCalls (Event.bfrWrite p) (Write env s p).1.calls = bfrCalls (Event.bfrWrite p) s.calls + 1 ∧
    (WriteLine env s p).1.w = s.w ∧
    (WriteLine env s p).1.calls = s.calls ++ [Event.bfrWriteLine p] ∧
    (WriteLine env s p).2 = env.bfrWriteLine (s.calls ++ [Event.bfrWriteLine p]) ∧
    bfrCalls (Event.bfrWriteLine p) (WriteLine env s p).1.calls =
      bfrCalls (Event.bfrWriteLine p) s.calls + 1 := by
  refine ⟨rfl, rfl, rfl, ?_, rfl, rfl, rfl, ?_⟩
  · simp [Write, bfrCalls_append, bfrCalls_cons, bfrCalls_nil]
  · simp [WriteLine, bfrCalls_append, bfrCalls_cons, bfrCalls_nil]

/-! ## The GCS writer: the stat after the transfer -/

/-- C5 fails as stated: on the example writer, with a backend whose put
succeeds and whose stat answers `NotFound`, `Close` returns nil. -/
theorem Close_stat_failure_returns_nil :
    exampleOpen.w.done = false ∧
    (copy statFailsEnv (closeBuffer exampleOpen)).2.2 = none ∧
    (setObjSts statFailsEnv (copy statFailsEnv (closeBuffer exampleOpen)).1).2
      = some "NotFound" ∧
    (Close statFailsEnv exampleOpen).2 = none := by
  decide

/-- C5, as amended: when the backend put of `Close` succeeds on an open writer
and the stat that follows returns an error, `Close` does not return that
error: it makes the stat call, then calls the buffer's `Cleanup` and returns
the result of `Cleanup`; `sts.Created` is then what `objSts.Created` was. -/
theorem Close_drops_stat_error (env : Env) (s : State) (err : String) (h : s.w.done = false)
    (hput : (copy env (closeBuffer s)).2.2 = none)
    (hstat : (setObjSts env (copy env (closeBuffer s)).1).2 = some err) :
    (Close env s).2 = env.bfrCleanup (Close env s).1.calls ∧
    (Close env s).1.calls =
      (copy env (closeBuffer s)).1.calls ++
        [Event.StatObject s.w.bucket s.w.objPth, Event.bfrCleanup] ∧
    (Close env s).1.w.sts.Created = s.w.objSts.Created := by
  rw [Close_put_ok env s h hput]
  cases hst : env.StatObject ((copy env (closeBuffer s)).1.calls ++
      [Event.StatObject (copy env (closeBuffer s)).1.w.bucket
        (copy env (closeBuffer s)).1.w.objPth]) with
  | error e2 =>
    rw [setObjSts_error env _ e2 hst]
    simp [copy_w, closeBuffer]
  | ok info =>
    rw [setObjSts_ok env _ info hst] at hstat
    cases hstat

/-- Witness for C5: the example writer on the backend whose stat answers `NotFound`. -/
theorem Close_drops_stat_error_witness :
    exampleOpen.w.done = false ∧
    (setObjSts statFailsEnv (copy statFailsEnv (closeBuffer exampleOpen)).1).2
      = some "NotFound" ∧
    (Close statFailsEnv exampleOpen).2
      = statFailsEnv.bfrCleanup (Close statFailsEnv exampleOpen).1.calls :=
  ⟨by decide, by decide,
    (Close_drops_stat_error statFailsEnv exampleOpen "NotFound"
      (by decide) (by decide) (by decide)).1⟩

/-! ## The GCS writer: metadata -/

theorem run_append (env : Env) (s : State) (a b : List Op) :
    run env s (a ++ b) = run env (run env s a) b := by
  simp [run, List.foldl_append]

theorem run_single (env : Env) (s : State) (op : Op) : run env s [op] = step env s op := rfl

theorem newWriter_fields (env : Env) (pth : String) (opt : Option Options)
    (calls : List Event) (s0 : State)
    (h : newWriterFromGCSClient env pth opt calls = Except.ok s0) :
    s0.w.sts = { Path := pth } ∧ s0.w.objSts = {} ∧ s0.w.done = false := by
  unfold newWriterFromGCSClient at h
  dsimp only at h
  split at h
  · cases h
  · cases h
    exact ⟨rfl, rfl, rfl⟩

theorem copy_bucket (env : Env) (s : State) :
    (copy env (closeBuffer s)).1.w.bucket = s.w.bucket := by
  rw [copy_w]; rfl

theorem copy_objPth (env : Env) (s : State) :
    (copy env (closeBuffer s)).1.w.objPth = s.w.objPth := by
  rw [copy_w]; rfl

theorem Close_w_put_failed (env : Env) (s : State) (e : String) (h : s.w.done = false)
    (hput : (copy env (closeBuffer s)).2.2 = some e) :
    (Close env s).1.w = { s.w with done := true } := by
  rw [Close_put_failed env s e h hput]

theorem Close_w_stat_error (env : Env) (s : State) (err : String) (h : s.w.done = false)
    (hput : (copy env (closeBuffer s)).2.2 = none)
    (hst : env.StatObject ((copy env (closeBuffer s)).1.calls ++
      [Event.StatObject s.w.bucket s.w.objPth]) = Except.error err) :
    (Close env s).1.w =
      { s.w with done := true, sts := { s.w.sts with Created := s.w.objSts.Created } } := by
  have hst2 : env.StatObject ((copy env (closeBuffer s)).1.calls ++
      [Event.StatObject (copy env (closeBuffer s)).1.w.bucket
        (copy env (closeBuffer s)).1.w.objPth]) = Except.error err := by
    rw [copy_bucket, copy_objPth]; exact hst
  rw [Close_put_ok env s h hput, setObjSts_error env _ err hst2]
  simp [copy_w, closeBuffer]

theorem Close_w_stat_ok (env : Env) (s : State) (info : ObjectInfo) (h : s.w.done = false)
    (hput : (copy env (closeBuffer s)).2.2 = none)
    (hst : env.StatObject ((copy env (closeBuffer s)).1.calls ++
      [Event.StatObject s.w.bucket s.w.objPth]) = Except.ok info) :
    (Close env s).1.w =
      { s.w with
        done := true
        objSts :=
          { LineCnt := s.w.objSts.LineCnt, Size := info.Size, Checksum := info.ETag,
            Path := info.Key, Created := info.LastModified }
        sts := { s.w.sts with Created := info.LastModified } } := by
  have hst2 : env.StatObject ((copy env (closeBuffer s)).1.calls ++
      [Event.StatObject (copy env (closeBuffer s)).1.w.bucket
        (copy env (closeBuffer s)).1.w.objPth]) = Except.ok info := by
    rw [copy_bucket, copy_objPth]; exact hst
  rw [Close_put_ok env s h hput, setObjSts_ok env _ info hst2]
  simp [copy_w, closeBuffer]

theorem setObjSts_none_of_ok (env : Env) (s : State) (info : ObjectInfo)
    (hst : env.StatObject ((copy env (closeBuffer s)).1.calls ++
      [Event.StatObject s.w.bucket s.w.objPth]) = Except.ok info) :
    (setObjSts env (copy env (closeBuffer s)).1).2 = none := by
  rw [setObjSts_error_iff]
  exact ⟨info, by rw [copy_bucket, copy_objPth]; exact hst⟩

/-- The destination path in `sts` is never written after construction. -/
theorem step_Path (env : Env) (s : State) (op : Op) :
    (step env s op).w.sts.Path = s.w.sts.Path := by
  cases op with
  | Write p => rfl
  | WriteLine ln => rfl
  | Abort =>
    cases hd : s.w.done with
    | true => simp [step, Abort_done env s hd]
    | false => simp [step, Abort_open env s hd]
  | Close =>
    show (Close env s).1.w.sts.Path = s.w.sts.Path
    cases hd : s.w.done with
    | true => rw [Close_done env s hd]
    | false =>
      cases hput : (copy env (closeBuffer s)).2.2 with
      | some e => rw [Close_w_put_failed env s e hd hput]
      | none =>
        cases hst : env.StatObject ((copy env (closeBuffer s)).1.calls ++
            [Event.StatObject s.w.bucket s.w.objPth]) with
        | error err => rw [Close_w_stat_error env s err hd hput hst]
        | ok info => rw [Close_w_stat_ok env s info hd hput hst]

theorem run_Path (env : Env) (ops : List Op) :
    ∀ s : State, (run env s ops).w.sts.Path = s.w.sts.Path := by
  induction ops with
  | nil => intro s; rfl
  | cons op rest ih =>
    intro s
    show (run env (step env s op) rest).w.sts.Path = s.w.sts.Path
    rw [ih, step_Path]

/-- From a writer with nothing committed, `sts.Created` becomes non-zero only
through a `Close` on the open writer in which put and stat both succeed. -/
theorem created_invariant (env : Env) (s0 : State)
    (hc : s0.w.sts.Created = 0) (ho : s0.w.objSts.Created = 0) (ops : List Op) :
    ((run env s0 ops).w.done = false →
      (run env s0 ops).w.sts.Created = 0 ∧ (run env s0 ops).w.objSts.Created = 0) ∧
    ((run env s0 ops).w.sts.Created ≠ 0 →
      ∃ pre post : List Op, ops = pre ++ Op.Close :: post ∧
        (run env s0 pre).w.done = false ∧
        (copy env (closeBuffer (run env s0 pre))).2.2 = none ∧
        (setObjSts env (copy env (closeBuffer (run env s0 pre))).1).2 = none) := by
  induction ops using List.reverseRecOn with
  | nil =>
    refine ⟨fun _ => ⟨hc, ho⟩, fun hne => absurd hc hne⟩
  | append_singleton l a ih =>
    obtain ⟨ih1, ih2⟩ := ih
    rw [run_append, run_single]
    -- a step that leaves the writer's fields alone
    have keep : (step env (run env s0 l) a).w = (run env s0 l).w →
        ((step env (run env s0 l) a).w.done = false →
          (step env (run env s0 l) a).w.sts.Created = 0 ∧
          (step env (run env s0 l) a).w.objSts.Created = 0) ∧
        ((step env (run env s0 l) a).w.sts.Created ≠ 0 →
          ∃ pre post : List Op, l ++ [a] = pre ++ Op.Close :: post ∧
            (run env s0 pre).w.done = false ∧
            (copy env (closeBuffer (run env s0 pre))).2.2 = none ∧
            (setObjSts env (copy env (closeBuffer (run env s0 pre))).1).2 = none) := by
      intro hw
      rw [hw]
      refine ⟨ih1, fun hne => ?_⟩
      obtain ⟨pre, post, hl, hrest⟩ := ih2 hne
      exact ⟨pre, post ++ [a], by rw [hl]; simp, hrest⟩
    -- a step that sets `done` and leaves `sts.Created` at zero
    have ends : (step env (run env s0 l) a).w.done = true →
        (step env (run env s0 l) a).w.sts.Created = 0 →
        ((step env (run env s0 l) a).w.done = false →
          (step env (run env s0 l) a).w.sts.Created = 0 ∧
          (step env (run env s0 l) a).w.objSts.Created = 0) ∧
        ((step env (run env s0 l) a).w.sts.Created ≠ 0 →
          ∃ pre post : List Op, l ++ [a] = pre ++ Op.Close :: post ∧
            (run env s0 pre).w.done = false ∧
            (copy env (closeBuffer (run env s0 pre))).2.2 = none ∧
            (setObjSts env (copy env (closeBuffer (run env s0 pre))).1).2 = none) := by
      intro hd hz
      refine ⟨fun hf => ?_, fun hne => absurd hz hne⟩
      rw [hd] at hf
      cases hf
    cases a with
    | Write p => exact keep rfl
    | WriteLine ln => exact keep rfl
    | Abort =>
      cases hd : (run env s0 l).w.done with
      | true => exact keep (by simp [step, Abort_done env _ hd])
      | false =>
        apply ends
        · simp [step, Abort_open env _ hd]
        · simp [step, Abort_open env _ hd, (ih1 hd).1]
    | Close =>
      cases hd : (run env s0 l).w.done with
      | true => exact keep (by simp [step, Close_done env _ hd])
      | false =>
        cases hput : (copy env (closeBuffer (run env s0 l))).2.2 with
        | some e =>
          apply ends
          · simp [step, Close_w_put_failed env _ e hd hput]
          · simp [step, Close_w_put_failed env _ e hd hput, (ih1 hd).1]
        | none =>
          cases hst : env.StatObject ((copy env (closeBuffer (run env s0 l))).1.calls ++
              [Event.StatObject (run env s0 l).w.bucket (run env s0 l).w.objPth]) with
          | error err =>
            apply ends
            · simp [step, Close_w_stat_error env _ err hd hput hst]
            · simp [step, Close_w_stat_error env _ err hd hput hst, (ih1 hd).2]
          | ok info =>
            refine ⟨fun hf => ?_, fun _ => ⟨l, [], rfl, hd, hput,
              setObjSts_none_of_ok env _ info hst⟩⟩
            have hdone : (step env (run env s0 l) Op.Close).w.done = true :=
              Close_sets_done env _
            rw [hdone] at hf
            cases hf

/-- C4: for a writer built by `newWriterFromGCSClient` and every sequence of
`Write`, `WriteLine`, `Close` and `Abort` calls on it, `Stats().Created` is the
zero time unless the sequence contains a `Close`, made on the still open
writer, in which the backend put succeeded and the backend stat succeeded. In
particular, while the writer is open (before any `Close`) it is zero, and it is
zero after an `Abort`, after a `Close` whose put failed, and after a `Close`
whose put succeeded and whose stat failed. -/
theorem Created_zero_unless_committed (env : Env) (pth : String) (opt : Option Options)
    (calls : List Event) (s0 : State)
    (hnew : newWriterFromGCSClient env pth opt calls = Except.ok s0) (ops : List Op) :
    ((Stats env (run env s0 ops)).Created ≠ 0 →
      ∃ pre post : List Op, ops = pre ++ Op.Close :: post ∧
        (run env s0 pre).w.done = false ∧
        (copy env (closeBuffer (run env s0 pre))).2.2 = none ∧
        (setObjSts env (copy env (closeBuffer (run env s0 pre))).1).2 = none) ∧
    ((run env s0 ops).w.done = false →
      (Stats env (run env s0 ops)).Created = 0 ∧
      (Stats env (Abort env (run env s0 ops)).1).Created = 0 ∧
      (∀ e : String, (copy env (closeBuffer (run env s0 ops))).2.2 = some e →
        (Stats env (Close env (run env s0 ops)).1).Created = 0) ∧
      (∀ err : String, (copy env (closeBuffer (run env s0 ops))).2.2 = none →
        (setObjSts env (copy env (closeBuffer (run env s0 ops))).1).2 = some err →
        (Stats env (Close env (run env s0 ops)).1).Created = 0)) := by
  obtain ⟨hsts, hobj, _⟩ := newWriter_fields env pth opt calls s0 hnew
  obtain ⟨inv1, inv2⟩ := created_invariant env s0 (by rw [hsts]) (by rw [hobj]) ops
  refine ⟨inv2, fun hopen => ?_⟩
  obtain ⟨hc, ho⟩ := inv1 hopen
  refine ⟨hc, ?_, ?_, ?_⟩
  · rw [Abort_open env _ hopen]
    exact hc
  · intro e hput
    show (Close env (run env s0 ops)).1.w.sts.Created = 0
    rw [Close_w_put_failed env _ e hopen hput]
    exact hc
  · intro err hput hstat
    show (Close env (run env s0 ops)).1.w.sts.Created = 0
    cases hst : env.StatObject ((copy env (closeBuffer (run env s0 ops))).1.calls ++
        [Event.StatObject (run env s0 ops).w.bucket (run env s0 ops).w.objPth]) with
    | error e2 =>
      rw [Close_w_stat_error env _ e2 hopen hput hst]
      exact ho
    | ok info =>
      rw [setObjSts_none_of_ok env _ info hst] at hstat
      cases hstat

/-- Witness for C4: the example writer, written to and then closed on a backend
whose put and stat succeed. -/
theorem Created_zero_unless_committed_witness :
    newWriterFromGCSClient okEnv "a/b.json" none [] = Except.ok exampleNew ∧
    (Stats okEnv (run okEnv exampleNew [Op.Write [1, 2, 3], Op.Close])).Created ≠ 0 ∧
    ∃ pre post : List Op, [Op.Write [1, 2, 3], Op.Close] = pre ++ Op.Close :: post ∧
      (run okEnv exampleNew pre).w.done = false ∧
      (copy okEnv (closeBuffer (run okEnv exampleNew pre))).2.2 = none ∧
      (setObjSts okEnv (copy okEnv (closeBuffer (run okEnv exampleNew pre))).1).2 = none :=
  ⟨rfl, by decide,
    (Created_zero_unless_committed okEnv "a/b.json" none [] exampleNew rfl
      [Op.Write [1, 2, 3], Op.Close]).1 (by decide)⟩

/-- C6 fails as stated: the example writer holds three bytes, the buffer's
checksum is `buffer-md5`, put and stat succeed and the backend's stat reports
size 5 and ETag `backend-etag`; after `Close`, `Stats()` has the backend's
modified time, and the size and checksum of the buffer, not of the backend. -/
theorem Stats_after_commit_from_buffer :
    exampleOpen.w.done = false ∧
    (copy okEnv (closeBuffer exampleOpen)).2.2 = none ∧
    okEnv.StatObject ((copy okEnv (closeBuffer exampleOpen)).1.calls ++
      [Event.StatObject exampleOpen.w.bucket exampleOpen.w.objPth]) = Except.ok exampleInfo ∧
    (Stats okEnv (Close okEnv exampleOpen).1).Created = exampleInfo.LastModified ∧
    (Stats okEnv (Close okEnv exampleOpen).1).Size = 3 ∧
    exampleInfo.Size = 5 ∧
    (Stats okEnv (Close okEnv exampleOpen).1).Checksum = "buffer-md5" ∧
    exampleInfo.ETag = "backend-etag" ∧
    ¬ ((Stats okEnv (Close okEnv exampleOpen).1).Size = exampleInfo.Size ∧
       (Stats okEnv (Close okEnv exampleOpen).1).Checksum = exampleInfo.ETag) := by
  refine ⟨by decide, by decide, rfl, by decide, by decide, by decide, by decide, by decide,
    by decide⟩

/-- C6, as amended: for a writer built by `newWriterFromGCSClient` for the
path `pth`, after a `Close` on the still open writer in which the backend put
and the backend stat both succeed, `Stats()` returns `Created` equal to the
modified time the backend stat reported and `Path` equal to `pth`; every other
field, `Size` and `Checksum` among them, is what the buffer's `Stats()` reports
at that moment, not what the backend stat reported. -/
theorem Stats_after_commit (env : Env) (pth : String) (opt : Option Options)
    (calls : List Event) (s0 : State)
    (hnew : newWriterFromGCSClient env pth opt calls = Except.ok s0) (ops : List Op)
    (info : ObjectInfo)
    (hopen : (run env s0 ops).w.done = false)
    (hput : (copy env (closeBuffer (run env s0 ops))).2.2 = none)
    (hstat : env.StatObject ((copy env (closeBuffer (run env s0 ops))).1.calls ++
      [Event.StatObject (run env s0 ops).w.bucket (run env s0 ops).w.objPth]) = Except.ok info) :
    Stats env (Close env (run env s0 ops)).1 =
      { env.bfrStats (Close env (run env s0 ops)).1.calls with
        Path := pth, Created := info.LastModified } := by
  obtain ⟨hsts, _, _⟩ := newWriter_fields env pth opt calls s0 hnew
  have hpath : (run env s0 ops).w.sts.Path = pth := by rw [run_Path, hsts]
  unfold Stats
  rw [Close_w_stat_ok env _ info hopen hput hstat]
  simp [hpath]

/-- Witness for C6: the example writer, written to and closed on a backend
whose put and stat succeed. -/
theorem Stats_after_commit_witness :
    newWriterFromGCSClient okEnv "a/b.json" none [] = Except.ok exampleNew ∧
    (run okEnv exampleNew [Op.Write [1, 2, 3]]).w.done = false ∧
    Stats okEnv (Close okEnv (run okEnv exampleNew [Op.Write [1, 2, 3]])).1 =
      { okEnv.bfrStats (Close okEnv (run okEnv exampleNew [Op.Write [1, 2, 3]])).1.calls with
        Path := "a/b.json", Created := exampleInfo.LastModified } :=
  ⟨rfl, by decide,
    Stats_after_commit okEnv "a/b.json" none [] exampleNew rfl [Op.Write [1, 2, 3]]
      exampleInfo (by decide) (by decide) rfl⟩

/-! ## The GCS writer: content type -/

/-- C9 fails as stated: a writer for `a/b.json` constructed with the content
type override `text/plain` in its options still sends `application/json` with
its backend put. -/
theorem copy_ignores_override :
    (match exampleOverride with
      | Except.ok s => ((copy okEnv (closeBuffer s)).1.calls.getLast?).bind Event.contentType?
      | Except.error _ => none) = some "application/json" := by
  decide

/-- C9, as amended: the call `copy` adds is a backend put whose content type is
never empty: it is the type `mime.TypeByExtension` gives for the extension of
the object path when that is not empty, and `application/octet-stream` when it
is empty (no associated type). The writer has no content type override: an
override in the options changes nothing in what `newWriterFromGCSClient`
builds, so the content type depends on the object path alone. -/
theorem copy_content_type (env : Env) (s : State) :
    (∃ e : Event, (copy env s).1.calls = s.calls ++ [e] ∧
      e.contentType? = some (contentType env s.w.objPth)) ∧
    contentType env s.w.objPth ≠ "" ∧
    (env.TypeByExtension (filepath.Ext s.w.objPth) ≠ "" →
      contentType env s.w.objPth = env.TypeByExtension (filepath.Ext s.w.objPth)) ∧
    (env.TypeByExtension (filepath.Ext s.w.objPth) = "" →
      contentType env s.w.objPth = "application/octet-stream") ∧
    (∀ (pth : String) (o : Options) (x : Option String) (calls : List Event),
      newWriterFromGCSClient env pth (some { o with ContentTypeOverride := x }) calls =
        newWriterFromGCSClient env pth (some o) calls) := by
  refine ⟨?_, ?_, ?_, ?_, ?_⟩
  · by_cases ht : s.w.tmpPth = ""
    · exact ⟨Event.PutObject s.w.bucket s.w.objPth (env.bfrStats s.calls).Size
        { ContentType := contentType env s.w.objPth }, by simp [copy, ht], rfl⟩
    · exact ⟨Event.FPutObject s.w.bucket s.w.objPth s.w.tmpPth
        { ContentType := contentType env s.w.objPth }, by simp [copy, ht], rfl⟩
  · unfold contentType
    dsimp only
    split
    · decide
    · assumption
  · intro h
    simp [contentType, h]
  · intro h
    simp [contentType, h]
  · intro pth o x calls
    by_cases hgz : filepath.Ext pth = ".gz" <;> simp [newWriterFromGCSClient, hgz]

/-- Witness for C9: `a/b.json` gives `application/json` and `a/b`, which has no
extension, gives `application/octet-stream` with Go's built-in table. -/
theorem copy_content_type_witness :
    contentType okEnv exampleOpen.w.objPth
      = okEnv.TypeByExtension (filepath.Ext exampleOpen.w.objPth) ∧
    contentType okEnv "a/b.json" = "application/json" ∧
    contentType okEnv "a/b" = "application/octet-stream" :=
  ⟨(copy_content_type okEnv exampleOpen).2.2.1 (by decide), by decide, by decide⟩

end GCS

end TaskTools
